import Mathlib

/-!
Verification of the iterm2-api-wrapper command-execution core.

The definitions below are a shallow embedding of the Python source:
`iterm2_api_wrapper/state.py` (sentinel wrapper builder, scrollback
snapshots, marker rendering, handle validation/refresh, strategy
selection) and `iterm2_api_wrapper/gateway.py` (connection retry).
Strings are `List Char`, byte strings are `List Nat`, fallible calls are
`Option`/`Except`, and the remote control plane is an explicit
environment record.
-/

/-- Lowercase hexadecimal digit, the alphabet of `uuid.uuid4().hex`. -/
def isLowerHex (c : Char) : Bool :=
  c.isDigit || ('a' ≤ c && c ≤ 'f')

/-- The standard base64 alphabet, as used by Python's `base64.b64encode`. -/
def b64alphabet : List Char :=
  "ABCDEFGHIJKLMNOPQRSTUVWXYZabcdefghijklmnopqrstuvwxyz0123456789+/".toList

/-- Character for a six-bit group. -/
def b64char (n : Nat) : Char :=
  b64alphabet.getD n 'A'

/-- Six-bit value of a base64 character (none for characters outside the
alphabet, `'='` included). -/
def b64val (c : Char) : Option Nat :=
  if 'A' ≤ c && c ≤ 'Z' then some (c.toNat - 65)
  else if 'a' ≤ c && c ≤ 'z' then some (c.toNat - 97 + 26)
  else if '0' ≤ c && c ≤ '9' then some (c.toNat - 48 + 52)
  else if c = '+' then some 62
  else if c = '/' then some 63
  else none

/-- RFC 4648 base64 encoding of a byte string (`base64.b64encode`). -/
def b64encode : List Nat → List Char
  | a :: b :: c :: rest =>
      b64char (a / 4) :: b64char ((a % 4) * 16 + b / 16) ::
      b64char ((b % 16) * 4 + c / 64) :: b64char (c % 64) :: b64encode rest
  | [a, b] =>
      [b64char (a / 4), b64char ((a % 4) * 16 + b / 16), b64char ((b % 16) * 4), '=']
  | [a] =>
      [b64char (a / 4), b64char ((a % 4) * 16), '=', '=']
  | [] => []

/-- RFC 4648 base64 decoding (`base64.b64decode` on well-formed input;
ill-formed chunks decode to `[]`). -/
def b64decode : List Char → List Nat
  | c1 :: c2 :: c3 :: c4 :: rest =>
      match b64val c1, b64val c2 with
      | some v1, some v2 =>
          if c3 = '=' then [v1 * 4 + v2 / 16]
          else
            match b64val c3 with
            | some v3 =>
                if c4 = '=' then [v1 * 4 + v2 / 16, (v2 % 16) * 16 + v3 / 4]
                else
                  match b64val c4 with
                  | some v4 =>
                      (v1 * 4 + v2 / 16) :: ((v2 % 16) * 16 + v3 / 4) ::
                      ((v3 % 4) * 64 + v4) :: b64decode rest
                  | none => []
            | none => []
      | _, _ => []
  | _ => []

/-- Expansion of one character under `str.replace("'", "'\"'\"'")`. -/
def quoteExpand (c : Char) : List Char :=
  if c = '\'' then "'\"'\"'".toList else [c]

/-- Model of `iTermState._sh_single_quote`: POSIX-shell-safe single-quoted literal;
refuses a NUL byte (the Python raises `ValueError`). -/
def sh_single_quote (value : List Char) : Option (List Char) :=
  if value.contains '\x00' then none
  else some ('\'' :: value.flatMap quoteExpand ++ ['\''])

/-- Literal text of the wrapper before the first token splice. -/
def chunkW1 : List Char :=
  "printf \"%s%s\\n\" \"__PYTERM_MCP_BEGIN__\" \"".toList

/-- Literal text between the first token splice and the base64 literal. -/
def chunkW2 : List Char :=
  "__\"; if eval \"`printf '%s' ".toList

/-- Literal text between the base64 literal and the first trampoline. -/
def chunkW3 : List Char :=
  " | base64 -d`\"; then ".toList

/-- Literal text between the two trampolines. -/
def chunkW4 : List Char :=
  " 0; else ".toList

/-- Literal tail of the wrapper. -/
def chunkW5 : List Char :=
  " \"$?\"; fi".toList

/-- Trampoline text before its token splice. -/
def chunkT1 : List Char :=
  "command sh -c 'printf \"%s%s:%d\\n\" \"__PYTERM_MCP_END__\" \"".toList

/-- Trampoline text after its token splice. -/
def chunkT2 : List Char :=
  "__\" \"$1\"; exit \"$1\"' sh".toList

/-- The `end_trampoline` built inside `_wrap_with_markers`. -/
def end_trampoline (token : List Char) : List Char :=
  chunkT1 ++ token ++ chunkT2

/-- Model of `iTermState._wrap_with_markers`, with the random `uuid.uuid4().hex[:12]`
token passed as a parameter. Returns `(wrapped, begin, end_prefix)`. -/
def wrap_with_markers (cmd : List Nat) (token : List Char) :
    Option (List Char × List Char × List Char) :=
  let beginMark := "__PYTERM_MCP_BEGIN__".toList ++ token ++ "__".toList
  let endMark := "__PYTERM_MCP_END__".toList ++ token ++ "__".toList
  match sh_single_quote (b64encode cmd) with
  | none => none
  | some cmdLit =>
      let wrapped :=
        chunkW1 ++ token ++ chunkW2 ++ cmdLit ++ chunkW3 ++
        end_trampoline token ++ chunkW4 ++ end_trampoline token ++ chunkW5
      some (wrapped, beginMark, endMark)

/-- One step of the scanner that rejects a double underscore followed by a
lowercase hex digit. The state is the number of pending underscores,
capped at 2; `none` is rejection. -/
def uuStep (s : Nat) (c : Char) : Option Nat :=
  if c = '_' then some (min 2 (s + 1))
  else if 2 ≤ s && isLowerHex c then none
  else some 0

/-- Run the `uuStep` scanner over a string. -/
def uuRun (s : Nat) : List Char → Option Nat
  | [] => some s
  | c :: l =>
      match uuStep s c with
      | none => none
      | some s' => uuRun s' l

/-- Python `str.find`: index of the first occurrence of `pat` in `s`
(`none` for `-1`). -/
def findSubstr (pat : List Char) : List Char → Option Nat
  | [] => if pat.isEmpty then some 0 else none
  | c :: rest =>
      if pat.isPrefixOf (c :: rest) then some 0
      else (findSubstr pat rest).map (· + 1)

/-- One line of a terminal snapshot (`iterm2.screen.LineContents`): its text
and whether it ends in a hard end-of-line. -/
structure LineC where
  str : List Char
  hard_eol : Bool

/-- Model of `iTermState._render_lines_until_end_marker`: convert lines to text,
stopping at the end marker and truncating the line holding it. -/
def render_lines_until_end_marker (lines : List LineC) (endMark : List Char) :
    List Char :=
  match lines with
  | [] => []
  | l :: rest =>
      match findSubstr (endMark ++ [':']) l.str with
      | some pos => if 0 < pos then l.str.take pos else []
      | none =>
          l.str ++ (if l.hard_eol then ['\n'] else []) ++
          render_lines_until_end_marker rest endMark

/-- Value of a maximal leading digit run (`none` when there is none),
the `\d+` part of the end-marker regex. -/
def digitRunVal (l : List Char) : Option Nat :=
  match l.takeWhile Char.isDigit with
  | [] => none
  | ds => some (ds.foldl (fun a c => a * 10 + (c.toNat - 48)) 0)

/-- The `-?\d+` status group of the end-marker regex, matched at the start
of `l`. -/
def statusParse (l : List Char) : Option Int :=
  match l with
  | '-' :: rest => (digitRunVal rest).map (fun n => -(n : Int))
  | _ => (digitRunVal l).map (fun n => (n : Int))

/-- Model of `re.search` for the pattern `end_prefix:(-?\d+)`: leftmost match of
`mark` (already ending in `':'`) followed by a status; returns the status. -/
def statusOf (mark : List Char) : List Char → Option Int
  | [] => none
  | c :: rest =>
      match (if mark.isPrefixOf (c :: rest) then statusParse ((c :: rest).drop mark.length) else none) with
      | some v => some v
      | none => statusOf mark rest

/-- Index of the last element satisfying `p`. -/
def findLastIdx (p : α → Bool) : List α → Option Nat
  | [] => none
  | a :: rest =>
      match findLastIdx p rest with
      | some i => some (i + 1)
      | none => if p a then some 0 else none

/-- The scan-and-extract core of
`iTermState._run_command_without_shell_integration` over a quiescent
buffer whose first retained line is the overflow line (index 0): find the
end marker in the last `tailProbe` lines scanning upward, find the begin
marker scanning backward from there (falling back to the earliest
retained line), and render the lines in between. `none` models the
`TimeoutError` when no end marker is on screen. -/
def sentinel_extract (tailProbe : Nat) (buffer : List LineC)
    (beginMark endMark : List Char) : Option (List Char) :=
  let marker := endMark ++ [':']
  let tailStart := buffer.length - min tailProbe buffer.length
  match findLastIdx (fun l => (statusOf marker l.str).isSome) (buffer.drop tailStart) with
  | none => none
  | some j =>
      let e := tailStart + j
      let contentStart :=
        match findLastIdx (fun l => (findSubstr beginMark l.str).isSome) (buffer.take (e + 1)) with
        | some b => b + 1
        | none => 0
      some (render_lines_until_end_marker
        ((buffer.drop contentStart).take (e + 1 - contentStart)) endMark)

/-- Lowercasing of a Python string (`str.lower` on ASCII). -/
def toLowerList (l : List Char) : List Char :=
  l.map Char.toLower

/-- The two command-execution strategies of `run_command`. -/
inductive Strategy
  | structured
  | sentinel
deriving DecidableEq

/-- Environment seen by one `run_command` invocation: what the process
environment and the control plane would answer at each remote call. -/
structure RunEnv where
  /-- Value of `os.getenv("ITERM_SHELL_INTEGRATION_INSTALLED")`. -/
  envVarShellIntegration : Option (List Char)
  /-- Result of `_get_prompt()` at probe time (`_shell_integration_enabled`). -/
  probePrompt : Option Nat
  /-- Result of `_get_prompt()` after the command text was sent. -/
  lastPrompt : Option Nat
  /-- Whether `_wait_for_prompt` sees a COMMAND_END event before timeout. -/
  waitOk : Bool
  /-- Output of `_string_in_lines` for a given prompt. -/
  structuredContent : Nat → List Char
  /-- What `_run_command_without_shell_integration` would return. -/
  sentinelResult : Except Unit (List Char)
  /-- Spec-probe observable: the current buffer's lines. -/
  bufferLines : List (List Char)
  /-- Spec-probe observable: the "username" identity variable. -/
  username : List Char
  /-- Spec-probe observable: the "hostname" identity variable. -/
  hostname : List Char
  /-- Spec-probe observable: a structured prompt event was recorded. -/
  promptEventRecorded : Bool

/-- Model of `iTermState._shell_integration_enabled`: the environment variable
`ITERM_SHELL_INTEGRATION_INSTALLED` lowercases to `"yes"` and a last
prompt object exists. -/
def shell_integration_enabled (env : RunEnv) : Bool :=
  (toLowerList (env.envVarShellIntegration.getD []) == "yes".toList) &&
  env.probePrompt.isSome

/-- Modelled from the spec: the three-condition probe the spec describes
for strategy selection (non-empty buffer, non-empty "username" and
"hostname" variables, at least one recorded prompt event). Stated for
comparison with `shell_integration_enabled`, the probe the source uses. -/
def spec_probe_structured (env : RunEnv) : Bool :=
  (!env.bufferLines.isEmpty) && (!env.username.isEmpty) &&
  (!env.hostname.isEmpty) && env.promptEventRecorded

/-- The diagnostic string `run_command` returns when the last prompt is
unavailable in the structured strategy. -/
def brokenMsg : List Char :=
  "Shell integration appears broken; Unable to get last prompt. Exiting...".toList

/-- The diagnostic string `run_command` returns when the completion-event
wait times out in the structured strategy. -/
def timeoutMsg : List Char :=
  "Command timeout; Exiting shell-integration method...".toList

/-- Strategy branch taken by `iTermState.run_command` (its lines 528-539). -/
def run_command_strategy (env : RunEnv) : Strategy :=
  if shell_integration_enabled env then Strategy.structured else Strategy.sentinel

/-- Result of `iTermState.run_command` (its lines 528-563): sentinel
fallback when the probe fails; otherwise the structured strategy, which
returns a diagnostic string when the last prompt is missing or the
completion wait times out. -/
def run_command (env : RunEnv) : Except Unit (List Char) :=
  if shell_integration_enabled env then
    match env.lastPrompt with
    | none => Except.ok brokenMsg
    | some p =>
        if env.waitOk then Except.ok (env.structuredContent p)
        else Except.ok timeoutMsg
  else
    env.sentinelResult

/-- A remote call that either returns or raises. -/
inductive Call (α : Type)
  | ok (a : α)
  | raises

/-- The session handle (`iTermState`'s dataclass fields); object references
are abstract identifiers. -/
structure Handle where
  connection : Nat
  app : Nat
  window : Nat
  tab : Nat
  session : Nat
  profile : Nat
  refresh_callback : Option Nat
  is_hotkey_window : Bool
  event_loop : Option Nat
  run_command_lock : Nat
deriving DecidableEq

/-- What the control plane answers during one `validated_state` call. -/
structure ValidationEnv where
  /-- The `online` property (websocket open and loop usable). -/
  online : Call Bool
  /-- Result of `app.async_get_app(...)`. -/
  getApp : Call (Option Nat)
  /-- Result of `current_app.get_session_by_id(...)`. -/
  getSession : Call (Option Nat)
  /-- Result of `current_app.get_window_and_tab_for_session(...)`. -/
  getWindowTab : Call (Option Nat × Option Nat)

/-- Model of `iTermState.validated_state`: returns the boolean and the handle as
mutated so far (the Python updates `self.app`/`self.session` before later
checks; any raise is folded into `False` by the `except`). -/
def validated_state_run (self : Handle) (env : ValidationEnv) : Bool × Handle :=
  match env.online with
  | Call.raises => (false, self)
  | Call.ok false => (false, self)
  | Call.ok true =>
      match env.getApp with
      | Call.raises => (false, self)
      | Call.ok none => (false, self)
      | Call.ok (some a) =>
          let self1 := { self with app := a }
          match env.getSession with
          | Call.raises => (false, self1)
          | Call.ok none => (false, self1)
          | Call.ok (some s) =>
              let self2 := { self1 with session := s }
              match env.getWindowTab with
              | Call.raises => (false, self2)
              | Call.ok (some w, some t) => (true, { self2 with window := w, tab := t })
              | Call.ok (_, _) => (false, self2)

/-- The boolean `validated_state` returns. -/
def validated_state (self : Handle) (env : ValidationEnv) : Bool :=
  (validated_state_run self env).1

/-- A Python value passed to `refresh_from`: a genuine handle or a value of
some other type. -/
inductive PyValue
  | handle (h : Handle)
  | other (typeName : List Char)

/-- The `TypeError` message `refresh_from` raises for a non-handle. -/
def typeMismatchMsg (typeName : List Char) : List Char :=
  "refresh_from expects an iTermState; got '".toList ++ typeName ++ ['\'']

/-- Model of `iTermState.refresh_from`: copy every field from the new state except
the lock; the event loop is taken from the new state only when it has
one. A non-handle argument raises `TypeError` before any mutation. -/
def refresh_from (self : Handle) (new_state : PyValue) : Except (List Char) Handle :=
  match new_state with
  | PyValue.other t => Except.error (typeMismatchMsg t)
  | PyValue.handle o =>
      Except.ok
        { connection := o.connection
          app := o.app
          window := o.window
          tab := o.tab
          session := o.session
          profile := o.profile
          refresh_callback := o.refresh_callback
          is_hotkey_window := o.is_hotkey_window
          event_loop := if o.event_loop.isSome then o.event_loop else self.event_loop
          run_command_lock := self.run_command_lock }

/-- The handle as observed after `refresh_from` returns or raises (a raise
leaves `self` untouched). -/
def refresh_apply (self : Handle) (new_state : PyValue) : Handle :=
  match refresh_from self new_state with
  | Except.ok h => h
  | Except.error _ => self

/-- The `RuntimeError` message `ensure_state` raises when no refresh
callback is available. -/
def noRefreshCallbackMsg : List Char :=
  "No refresh callback provided to ensure_state".toList

/-- Model of `iTermState.ensure_state`: validate; when invalid, take the supplied
callback or else the stored one (`RuntimeError` when both are absent),
call it and `refresh_from` the produced value in place.
`callbackResult` gives the value each callback would produce. -/
def ensure_state (venv : ValidationEnv) (self : Handle) (supplied : Option Nat)
    (callbackResult : Nat → PyValue) : Except (List Char) Handle :=
  let r := validated_state_run self venv
  if r.1 then Except.ok r.2
  else
    match supplied.orElse (fun _ => self.refresh_callback) with
    | none => Except.error noRefreshCallbackMsg
    | some cb => refresh_from r.2 (callbackResult cb)

/-- An `errno` as `_async_create_connection_with_retry` classifies it. -/
inductive Errno
  | enoent
  | econnrefused
  | econnreset
  | otherErr (n : Nat)
deriving DecidableEq

/-- Membership in `_TRANSIENT_CONNECT_ERRNOS`. -/
def transientErrno : Errno → Bool
  | Errno.otherErr _ => false
  | _ => true

/-- What one `connection_cls.async_create()` attempt does. -/
inductive ConnOutcome
  | success
  | oserror (e : Errno)

/-- Result of the retry loop: a connection after `n` attempts, a
`TimeoutError` after `n` attempts, or a re-raised non-transient `OSError`. -/
inductive RetryResult
  | okConn (attempts : Nat)
  | timedOut (attempts : Nat)
  | fatal (attempts : Nat)
deriving DecidableEq

/-- The sleep-delay sequence of the retry loop: 50 ms, multiplied by 1.6,
capped at 500 ms. -/
def delaySeq : Nat → ℚ
  | 0 => 0.05
  | n + 1 => min 0.5 (delaySeq n * 1.6)

/-- Model of the loop of `_async_create_connection_with_retry`: `outcome k` is the fate
of attempt `k`, `now` the elapsed time against `deadline`; sleeps are
recorded. `fuel` bounds the unrolling (`none` = not yet terminated). -/
def retry_run (outcome : Nat → ConnOutcome) (deadline : ℚ) :
    Nat → Nat → ℚ → ℚ → Option (RetryResult × List ℚ)
  | 0, _, _, _ => none
  | fuel + 1, k, now, delay =>
      match outcome k with
      | ConnOutcome.success => some (RetryResult.okConn (k + 1), [])
      | ConnOutcome.oserror e =>
          if transientErrno e then
            if deadline ≤ now then some (RetryResult.timedOut (k + 1), [])
            else
              match retry_run outcome deadline fuel (k + 1) (now + delay) (min 0.5 (delay * 1.6)) with
              | none => none
              | some (r, sleeps) => some (r, delay :: sleeps)
          else some (RetryResult.fatal (k + 1), [])

/-- Model of `_async_create_connection_with_retry` with its default backoff
constants (initial 0.05 s, factor 1.6, cap 0.5 s). -/
def create_connection_with_retry (outcome : Nat → ConnOutcome) (timeout_s : ℚ)
    (fuel : Nat) : Option (RetryResult × List ℚ) :=
  retry_run outcome timeout_s fuel 0 0 0.05

/-- Result of `session.async_get_line_info()`: overflow and the two heights. -/
structure LineInfo where
  overflow : Int
  scrollback_buffer_height : Int
  mutable_area_height : Int

/-- The line numbers `async_get_contents(first_line, number_of_lines)`
addresses. -/
def lineRange (start n : Int) : List Int :=
  List.map (fun (i : Nat) => start + (i : Int)) (List.range n.toNat)

/-- Model of `iTermState._snapshot_tail_lines`: last up-to `max_lines` lines. -/
def snapshot_tail_lines (li : LineInfo) (max_lines : Int) : Int × List Int :=
  if max_lines ≤ 0 then (0, [])
  else
    let total := li.scrollback_buffer_height + li.mutable_area_height
    if total ≤ 0 then (li.overflow, [])
    else
      let bottomExclusive := li.overflow + total
      let start := max li.overflow (bottomExclusive - max_lines)
      (start, lineRange start (bottomExclusive - start))

/-- Model of `iTermState._snapshot_range`: a clamped inclusive line range. -/
def snapshot_range (li : LineInfo) (first_line last_line_inclusive : Int) :
    Int × List Int :=
  if last_line_inclusive < first_line then (first_line, [])
  else
    let total := li.scrollback_buffer_height + li.mutable_area_height
    if total ≤ 0 then (li.overflow, [])
    else
      let bottomExclusive := li.overflow + total
      let start := max li.overflow first_line
      let endExclusive := min bottomExclusive (last_line_inclusive + 1)
      if endExclusive ≤ start then (start, [])
      else (start, lineRange start (endExclusive - start))

/-- The spec's sentinel scenario buffer: the prompt line, the begin-marker
line printed by the wrapper, the command's output, and the end-marker
line. -/
def scenario_buffer : List LineC :=
  [⟨"$ ".toList, true⟩,
   ⟨"__PYTERM_MCP_BEGIN__tok__".toList, true⟩,
   ⟨"hello".toList, true⟩,
   ⟨"__PYTERM_MCP_END__tok__:0".toList, true⟩]

/-- The scenario's begin marker. -/
def scenario_begin : List Char := "__PYTERM_MCP_BEGIN__tok__".toList

/-- The scenario's end-marker prefix. -/
def scenario_end : List Char := "__PYTERM_MCP_END__tok__".toList

/-- A transport that refuses the first two attempts and then succeeds. -/
def flaky3 : Nat → ConnOutcome :=
  fun k => if k < 2 then ConnOutcome.oserror Errno.econnrefused else ConnOutcome.success

/-- A transport that always refuses. -/
def alwaysRefuses : Nat → ConnOutcome :=
  fun _ => ConnOutcome.oserror Errno.econnrefused

/-- A run environment whose probe passes but where no last prompt is
available after the command is sent; the sentinel strategy would have
produced `"hello\n"`. -/
def envNoPrompt : RunEnv :=
  { envVarShellIntegration := some "yes".toList
    probePrompt := some 0
    lastPrompt := none
    waitOk := true
    structuredContent := fun _ => []
    sentinelResult := Except.ok "hello\n".toList
    bufferLines := []
    username := []
    hostname := []
    promptEventRecorded := false }

/-- A run environment whose probe passes but where the completion-event
wait times out. -/
def envWaitTimeout : RunEnv :=
  { envNoPrompt with lastPrompt := some 0, waitOk := false }

/-- A run environment satisfying every probe condition the spec lists
(non-empty buffer, identity variables, recorded prompt event, and even a
live prompt object) while `ITERM_SHELL_INTEGRATION_INSTALLED` is unset. -/
def envSpecProbeOnly : RunEnv :=
  { envVarShellIntegration := none
    probePrompt := some 0
    lastPrompt := some 0
    waitOk := true
    structuredContent := fun _ => []
    sentinelResult := Except.ok []
    bufferLines := ["$ ".toList]
    username := "user".toList
    hostname := "host".toList
    promptEventRecorded := true }

/-! ## Helper lemmas -/

theorem b64char_mem_alphabet (n : Nat) : b64char n ∈ b64alphabet := by
  unfold b64char
  rcases h : b64alphabet.getD n 'A' with _
  by_cases hn : n < b64alphabet.length
  · rw [List.getD_eq_getElem _ _ hn] at h
    rw [← h]
    exact List.getElem_mem hn
  · rw [List.getD_eq_default _ _ (Nat.le_of_not_lt hn)] at h
    rw [← h]
    decide

theorem b64encode_chars (bs : List Nat) :
    ∀ c ∈ b64encode bs, c ∈ b64alphabet ∨ c = '=' := by
  induction bs using b64encode.induct with
  | case1 a b c rest ih =>
      intro x hx
      simp only [b64encode, List.mem_cons] at hx
      rcases hx with h | h | h | h | h
      · exact Or.inl (h ▸ b64char_mem_alphabet _)
      · exact Or.inl (h ▸ b64char_mem_alphabet _)
      · exact Or.inl (h ▸ b64char_mem_alphabet _)
      · exact Or.inl (h ▸ b64char_mem_alphabet _)
      · exact ih x h
  | case2 a b =>
      intro x hx
      simp only [b64encode, List.mem_cons, List.not_mem_nil, or_false] at hx
      rcases hx with h | h | h | h
      · exact Or.inl (h ▸ b64char_mem_alphabet _)
      · exact Or.inl (h ▸ b64char_mem_alphabet _)
      · exact Or.inl (h ▸ b64char_mem_alphabet _)
      · exact Or.inr h
  | case3 a =>
      intro x hx
      simp only [b64encode, List.mem_cons, List.not_mem_nil, or_false] at hx
      rcases hx with h | h | h | h
      · exact Or.inl (h ▸ b64char_mem_alphabet _)
      · exact Or.inl (h ▸ b64char_mem_alphabet _)
      · exact Or.inr h
      · exact Or.inr h
  | case4 =>
      intro x hx
      simp [b64encode] at hx

theorem b64val_b64char : ∀ n < 64, b64val (b64char n) = some n := by
  decide

theorem b64char_ne_eq : ∀ n < 64, b64char n ≠ '=' := by
  decide

theorem b64_roundtrip (bs : List Nat) (h : ∀ b ∈ bs, b < 256) :
    b64decode (b64encode bs) = bs := by
  induction bs using b64encode.induct with
  | case1 a b c rest ih =>
      have ha : a < 256 := h a (by simp)
      have hb : b < 256 := h b (by simp)
      have hc : c < 256 := h c (by simp)
      have h1 : a / 4 < 64 := by omega
      have h2 : (a % 4) * 16 + b / 16 < 64 := by omega
      have h3 : (b % 16) * 4 + c / 64 < 64 := by omega
      have h4 : c % 64 < 64 := by omega
      simp only [b64encode, b64decode, b64val_b64char _ h1, b64val_b64char _ h2,
        if_neg (b64char_ne_eq _ h3), b64val_b64char _ h3,
        if_neg (b64char_ne_eq _ h4), b64val_b64char _ h4]
      rw [ih (fun x hx => h x (by simp [hx]))]
      have e1 : a / 4 * 4 + ((a % 4) * 16 + b / 16) / 16 = a := by omega
      have e2 : ((a % 4) * 16 + b / 16) % 16 * 16 + ((b % 16) * 4 + c / 64) / 4 = b := by
        omega
      have e3 : ((b % 16) * 4 + c / 64) % 4 * 64 + c % 64 = c := by omega
      rw [e1, e2, e3]
  | case2 a b =>
      have ha : a < 256 := h a (by simp)
      have hb : b < 256 := h b (by simp)
      have h1 : a / 4 < 64 := by omega
      have h2 : (a % 4) * 16 + b / 16 < 64 := by omega
      have h3 : (b % 16) * 4 < 64 := by omega
      simp only [b64encode, b64decode, b64val_b64char _ h1, b64val_b64char _ h2,
        if_neg (b64char_ne_eq _ h3), b64val_b64char _ h3, if_pos]
      have e1 : a / 4 * 4 + ((a % 4) * 16 + b / 16) / 16 = a := by omega
      have e2 : ((a % 4) * 16 + b / 16) % 16 * 16 + (b % 16) * 4 / 4 = b := by omega
      rw [e1, e2]
  | case3 a =>
      have ha : a < 256 := h a (by simp)
      have h1 : a / 4 < 64 := by omega
      have h2 : (a % 4) * 16 < 64 := by omega
      simp only [b64encode, b64decode, b64val_b64char _ h1, b64val_b64char _ h2, if_pos]
      have e1 : a / 4 * 4 + (a % 4) * 16 / 16 = a := by omega
      rw [e1]
  | case4 => rfl

theorem b64alphabet_no_specials :
    ∀ c ∈ b64alphabet, c ≠ '(' ∧ c ≠ ')' ∧ c ≠ '_' ∧ c ≠ '\x00' ∧ c ≠ '\'' := by
  decide

theorem b64encode_no_specials (bs : List Nat) :
    ∀ c ∈ b64encode bs, c ≠ '(' ∧ c ≠ ')' ∧ c ≠ '_' ∧ c ≠ '\x00' ∧ c ≠ '\'' := by
  intro c hc
  rcases b64encode_chars bs c hc with h | h
  · exact b64alphabet_no_specials c h
  · subst h
    refine ⟨by decide, by decide, by decide, by decide, by decide⟩

theorem flatMap_quoteExpand_id (l : List Char) (h : ∀ c ∈ l, c ≠ '\'') :
    l.flatMap quoteExpand = l := by
  induction l with
  | nil => rfl
  | cons x xs ih =>
      rw [List.flatMap_cons, ih (fun c hc => h c (List.mem_cons_of_mem _ hc))]
      have hx : x ≠ '\'' := h x (List.mem_cons_self _ _)
      simp [quoteExpand, hx]

theorem sh_single_quote_b64 (bs : List Nat) :
    sh_single_quote (b64encode bs) =
      some ('\'' :: b64encode bs ++ ['\'']) := by
  have hmem : '\x00' ∉ b64encode bs :=
    fun hmem => (b64encode_no_specials bs _ hmem).2.2.2.1 rfl
  have hnul : (b64encode bs).contains '\x00' = false := by simpa using hmem
  have hflat : (b64encode bs).flatMap quoteExpand = b64encode bs :=
    flatMap_quoteExpand_id _ (fun c hc => (b64encode_no_specials bs _ hc).2.2.2.2)
  rw [sh_single_quote, hnul]
  simp [hflat]

theorem wrap_eq (cmd : List Nat) (token : List Char) :
    wrap_with_markers cmd token =
      some (chunkW1 ++ token ++ chunkW2 ++ ('\'' :: b64encode cmd ++ ['\'']) ++
              chunkW3 ++ end_trampoline token ++ chunkW4 ++ end_trampoline token ++
              chunkW5,
            "__PYTERM_MCP_BEGIN__".toList ++ token ++ "__".toList,
            "__PYTERM_MCP_END__".toList ++ token ++ "__".toList) := by
  rw [wrap_with_markers, sh_single_quote_b64]

theorem uuRun_append (l₁ l₂ : List Char) (s : Nat) :
    uuRun s (l₁ ++ l₂) = (uuRun s l₁).bind (fun s' => uuRun s' l₂) := by
  induction l₁ generalizing s with
  | nil => rfl
  | cons c l ih =>
      rw [List.cons_append, uuRun, uuRun]
      cases uuStep s c with
      | none => rfl
      | some s' => exact ih s'

theorem uuRun_no_underscore (l : List Char) (h : ∀ c ∈ l, c ≠ '_') :
    uuRun 0 l = some 0 := by
  induction l with
  | nil => rfl
  | cons c rest ih =>
      rw [uuRun]
      have hc : c ≠ '_' := h c (List.mem_cons_self _ _)
      have : uuStep 0 c = some 0 := by
        rw [uuStep, if_neg hc]
        simp
      rw [this]
      exact ih (fun x hx => h x (List.mem_cons_of_mem _ hx))

theorem isLowerHex_ne_underscore (c : Char) (h : isLowerHex c = true) : c ≠ '_' := by
  intro he
  subst he
  simp [isLowerHex] at h

theorem uuRun_pattern_none (c : Char) (hc : isLowerHex c = true) (s : Nat)
    (r : List Char) : uuRun s ('_' :: '_' :: c :: r) = none := by
  have h1 : uuStep s '_' = some (min 2 (s + 1)) := by rw [uuStep, if_pos rfl]
  have h2 : uuStep (min 2 (s + 1)) '_' = some 2 := by
    rw [uuStep, if_pos rfl]
    congr 1
    omega
  have h3 : uuStep 2 c = none := by
    rw [uuStep, if_neg (isLowerHex_ne_underscore c hc), if_pos]
    simp [hc]
  simp only [uuRun, h1, h2, h3]

theorem uuRun_not_infix (w : List Char) (s : Nat) (hs : uuRun 0 w = some s)
    (c : Char) (hc : isLowerHex c = true) : ¬ ['_', '_', c] <:+: w := by
  rintro ⟨pre, suf, hw⟩
  have heq : w = pre ++ ('_' :: '_' :: c :: suf) := by
    rw [← hw]
    simp
  rw [heq, uuRun_append] at hs
  cases h : uuRun 0 pre with
  | none =>
      rw [h, Option.none_bind] at hs
      exact Option.noConfusion hs
  | some s' =>
      rw [h, Option.some_bind, uuRun_pattern_none c hc s'] at hs
      exact Option.noConfusion hs

theorem uuRun_chunkW1 : uuRun 0 chunkW1 = some 0 := by decide

theorem uuRun_chunkW2 : uuRun 0 chunkW2 = some 0 := by decide

theorem uuRun_chunkW3 : uuRun 0 chunkW3 = some 0 := by decide

theorem uuRun_chunkW4 : uuRun 0 chunkW4 = some 0 := by decide

theorem uuRun_chunkW5 : uuRun 0 chunkW5 = some 0 := by decide

theorem uuRun_chunkT1 : uuRun 0 chunkT1 = some 0 := by decide

theorem uuRun_chunkT2 : uuRun 0 chunkT2 = some 0 := by decide

theorem uuRun_token (token : List Char) (hhex : ∀ c ∈ token, isLowerHex c = true) :
    uuRun 0 token = some 0 :=
  uuRun_no_underscore token (fun c hc => isLowerHex_ne_underscore c (hhex c hc))

theorem uuRun_trampoline (token : List Char)
    (hhex : ∀ c ∈ token, isLowerHex c = true) :
    uuRun 0 (end_trampoline token) = some 0 := by
  simp only [end_trampoline, uuRun_append, uuRun_chunkT1, Option.some_bind,
    uuRun_token token hhex, uuRun_chunkT2]

theorem uuRun_wrapped (cmd : List Nat) (token : List Char)
    (hhex : ∀ c ∈ token, isLowerHex c = true) :
    uuRun 0 (chunkW1 ++ token ++ chunkW2 ++ ('\'' :: b64encode cmd ++ ['\'']) ++
      chunkW3 ++ end_trampoline token ++ chunkW4 ++ end_trampoline token ++
      chunkW5) = some 0 := by
  have hlit : uuRun 0 ('\'' :: b64encode cmd ++ ['\'']) = some 0 := by
    apply uuRun_no_underscore
    intro c hc
    rcases List.mem_cons.mp hc with h | h
    · subst h; decide
    · rcases List.mem_append.mp h with h | h
      · exact (b64encode_no_specials cmd c h).2.2.1
      · rcases List.mem_singleton.mp h with rfl
        decide
  generalize hL : ('\'' :: b64encode cmd ++ ['\'']) = L at hlit ⊢
  simp only [uuRun_append, Option.some_bind, uuRun_chunkW1,
    uuRun_token token hhex, uuRun_chunkW2, hlit, uuRun_chunkW3,
    uuRun_trampoline token hhex, uuRun_chunkW4, uuRun_chunkW5]

theorem isLowerHex_not_paren (c : Char) (h : isLowerHex c = true) :
    c ≠ '(' ∧ c ≠ ')' := by
  constructor <;> intro he <;> subst he <;> simp [isLowerHex] at h

theorem mem_wrapped_cases (cmd : List Nat) (token : List Char) (x : Char)
    (hx : x ∈ chunkW1 ++ token ++ chunkW2 ++ ('\'' :: b64encode cmd ++ ['\'']) ++
      chunkW3 ++ end_trampoline token ++ chunkW4 ++ end_trampoline token ++
      chunkW5) :
    x ∈ chunkW1 ∨ x ∈ chunkW2 ∨ x ∈ chunkW3 ∨ x ∈ chunkW4 ∨ x ∈ chunkW5 ∨
    x ∈ chunkT1 ∨ x ∈ chunkT2 ∨ x ∈ token ∨ x ∈ b64encode cmd ∨ x = '\'' := by
  simp only [end_trampoline, List.append_assoc, List.mem_append, List.mem_cons,
    List.mem_singleton] at hx
  tauto

/-- C1: for every command and every 12-character lowercase-hex token, the
wrapper text produced by `_wrap_with_markers` contains neither `'('` nor
`')'`, and contains neither the returned begin token nor the returned
end-prefix token as a contiguous substring. -/
theorem wrapper_autopair_and_marker_safety (cmd : List Nat) (token : List Char)
    (hlen : token.length = 12) (hhex : ∀ c ∈ token, isLowerHex c = true) :
    ∃ w b e, wrap_with_markers cmd token = some (w, b, e) ∧
      '(' ∉ w ∧ ')' ∉ w ∧ ¬ b <:+: w ∧ ¬ e <:+: w := by
  refine ⟨_, _, _, wrap_eq cmd token, ?_, ?_, ?_, ?_⟩
  · intro hx
    rcases mem_wrapped_cases cmd token _ hx with
      h | h | h | h | h | h | h | h | h | h
    · exact absurd h (by decide)
    · exact absurd h (by decide)
    · exact absurd h (by decide)
    · exact absurd h (by decide)
    · exact absurd h (by decide)
    · exact absurd h (by decide)
    · exact absurd h (by decide)
    · exact (isLowerHex_not_paren _ (hhex _ h)).1 rfl
    · exact (b64encode_no_specials cmd _ h).1 rfl
    · exact absurd h (by decide)
  · intro hx
    rcases mem_wrapped_cases cmd token _ hx with
      h | h | h | h | h | h | h | h | h | h
    · exact absurd h (by decide)
    · exact absurd h (by decide)
    · exact absurd h (by decide)
    · exact absurd h (by decide)
    · exact absurd h (by decide)
    · exact absurd h (by decide)
    · exact absurd h (by decide)
    · exact (isLowerHex_not_paren _ (hhex _ h)).2 rfl
    · exact (b64encode_no_specials cmd _ h).2.1 rfl
    · exact absurd h (by decide)
  · cases token with
    | nil => simp at hlen
    | cons t0 ts =>
        intro hinf
        have hpat : ['_', '_', t0] <:+:
            "__PYTERM_MCP_BEGIN__".toList ++ (t0 :: ts) ++ "__".toList := by
          refine ⟨"__PYTERM_MCP_BEGIN".toList, ts ++ "__".toList, ?_⟩
          have hb : "__PYTERM_MCP_BEGIN__".toList =
              "__PYTERM_MCP_BEGIN".toList ++ ['_', '_'] := by decide
          rw [hb]
          simp
        have hmem : t0 ∈ t0 :: ts := List.mem_cons_self _ _
        exact uuRun_not_infix _ 0 (uuRun_wrapped cmd (t0 :: ts) hhex) t0
          (hhex t0 hmem) (hpat.trans hinf)
  · cases token with
    | nil => simp at hlen
    | cons t0 ts =>
        intro hinf
        have hpat : ['_', '_', t0] <:+:
            "__PYTERM_MCP_END__".toList ++ (t0 :: ts) ++ "__".toList := by
          refine ⟨"__PYTERM_MCP_END".toList, ts ++ "__".toList, ?_⟩
          have hb : "__PYTERM_MCP_END__".toList =
              "__PYTERM_MCP_END".toList ++ ['_', '_'] := by decide
          rw [hb]
          simp
        have hmem : t0 ∈ t0 :: ts := List.mem_cons_self _ _
        exact uuRun_not_infix _ 0 (uuRun_wrapped cmd (t0 :: ts) hhex) t0
          (hhex t0 hmem) (hpat.trans hinf)

/-- Instance of the wrapper-safety theorem at the command bytes of `"hi"`
and a concrete hex token. -/
theorem wrapper_autopair_and_marker_safety_instance :
    ∃ w b e, wrap_with_markers [104, 105] "0123456789ab".toList = some (w, b, e) ∧
      '(' ∉ w ∧ ')' ∉ w ∧ ¬ b <:+: w ∧ ¬ e <:+: w :=
  wrapper_autopair_and_marker_safety [104, 105] "0123456789ab".toList
    (by decide) (by decide)

/-- C6: for every command byte string (shell metacharacters included), the
base64 payload embedded in the wrapper decodes back to the original
command byte-for-byte, and that payload is a substring of the wrapper. -/
theorem wrapper_payload_base64_round_trip (cmd : List Nat)
    (h : ∀ b ∈ cmd, b < 256) (token : List Char) :
    b64decode (b64encode cmd) = cmd ∧
    ∃ w b e, wrap_with_markers cmd token = some (w, b, e) ∧
      ('\'' :: b64encode cmd ++ ['\'']) <:+: w := by
  refine ⟨b64_roundtrip cmd h, _, _, _, wrap_eq cmd token, ?_⟩
  refine ⟨chunkW1 ++ token ++ chunkW2,
    chunkW3 ++ end_trampoline token ++ chunkW4 ++ end_trampoline token ++ chunkW5, ?_⟩
  simp [List.append_assoc]

/-- Instance of the payload round trip at the bytes of
`"echo $(date) # 'q'"`, a command full of shell metacharacters. -/
theorem wrapper_payload_round_trip_instance :
    b64decode (b64encode [101, 99, 104, 111, 32, 36, 40, 100, 97, 116, 101, 41,
      32, 35, 32, 39, 113, 39]) =
      [101, 99, 104, 111, 32, 36, 40, 100, 97, 116, 101, 41, 32, 35, 32, 39,
        113, 39] ∧
    ∃ w b e, wrap_with_markers [101, 99, 104, 111, 32, 36, 40, 100, 97, 116,
        101, 41, 32, 35, 32, 39, 113, 39] "0123456789ab".toList =
        some (w, b, e) ∧
      ('\'' :: b64encode [101, 99, 104, 111, 32, 36, 40, 100, 97, 116, 101, 41,
        32, 35, 32, 39, 113, 39] ++ ['\'']) <:+: w :=
  wrapper_payload_base64_round_trip _ (by decide) _

/-- C2: the sentinel strategy applied to the scenario buffer (prompt line,
begin-marker line, `"hello"`, end-marker line `"...:0"`) extracts
`"hello\n"`, the end line's status group reads 0; and in general the
renderer emits every line before the end-marker line followed by that
line truncated at the marker's first position. -/
theorem sentinel_scenario_and_truncation :
    (sentinel_extract 300 scenario_buffer scenario_begin scenario_end =
        some "hello\n".toList ∧
      statusOf (scenario_end ++ [':'])
        "__PYTERM_MCP_END__tok__:0".toList = some 0) ∧
    ∀ (P : List LineC) (lastL : LineC) (rest : List LineC)
      (mark : List Char) (p : Nat),
      (∀ l ∈ P, findSubstr (mark ++ [':']) l.str = none) →
      findSubstr (mark ++ [':']) lastL.str = some p →
      render_lines_until_end_marker (P ++ lastL :: rest) mark =
        (P.map (fun l => l.str ++ if l.hard_eol then ['\n'] else [])).flatten ++
          lastL.str.take p := by
  constructor
  · exact ⟨by decide, by decide⟩
  · intro P lastL rest mark p hP hlast
    induction P with
    | nil =>
        rw [List.nil_append, render_lines_until_end_marker, hlast]
        cases p with
        | zero => simp
        | succ n => simp
    | cons l P ih =>
        rw [List.cons_append, render_lines_until_end_marker,
          hP l (List.mem_cons_self _ _),
          ih (fun x hx => hP x (List.mem_cons_of_mem _ hx))]
        simp

/-- Instance of the truncation property: one clean line, then a line with
the marker at position 1. -/
theorem sentinel_truncation_instance :
    render_lines_until_end_marker
      [⟨"a".toList, true⟩, ⟨"xE:9".toList, false⟩] "E".toList =
      "a\nx".toList := by
  have h := sentinel_scenario_and_truncation.2 [⟨"a".toList, true⟩]
    ⟨"xE:9".toList, false⟩ [] "E".toList 1 (by decide) (by decide)
  rw [List.singleton_append] at h
  rw [h]
  decide

/-- C3 counterexample: with the probe passing, a missing last prompt (or a
completion-wait timeout) makes `run_command` return a diagnostic string;
it does not fall back to the sentinel strategy, whose output
`"hello\n"` is available in the environment. -/
theorem structured_failure_no_sentinel_fallback :
    run_command envNoPrompt = Except.ok brokenMsg ∧
    run_command envNoPrompt ≠ envNoPrompt.sentinelResult ∧
    run_command envWaitTimeout = Except.ok timeoutMsg ∧
    run_command envWaitTimeout ≠ envWaitTimeout.sentinelResult := by
  refine ⟨rfl, ?_, rfl, ?_⟩
  · intro h
    exact absurd (Except.ok.inj h) (by decide)
  · intro h
    exact absurd (Except.ok.inj h) (by decide)

/-- C3 amended: when the probe passes but the last prompt is unavailable,
`run_command` returns the "shell integration appears broken" diagnostic;
when the completion wait times out it returns the "command timeout"
diagnostic. It does not invoke the sentinel strategy in either case. -/
theorem structured_failure_returns_diagnostic (env : RunEnv)
    (hprobe : shell_integration_enabled env = true) :
    (env.lastPrompt = none → run_command env = Except.ok brokenMsg) ∧
    (env.waitOk = false → ∀ p, env.lastPrompt = some p →
      run_command env = Except.ok timeoutMsg) := by
  constructor
  · intro hnone
    simp [run_command, hprobe, hnone]
  · intro hwait p hsome
    simp [run_command, hprobe, hsome, hwait]

/-- Instance of the diagnostic behavior at the two concrete environments. -/
theorem structured_failure_diagnostic_instance :
    run_command envNoPrompt = Except.ok brokenMsg ∧
    run_command envWaitTimeout = Except.ok timeoutMsg :=
  ⟨(structured_failure_returns_diagnostic envNoPrompt (by decide)).1 rfl,
   (structured_failure_returns_diagnostic envWaitTimeout (by decide)).2 rfl 0 rfl⟩

/-- C4 counterexample: an environment satisfying all three probe conditions
of the spec (non-empty buffer, non-empty username and hostname, recorded
prompt event) in which `run_command` nevertheless selects the sentinel
strategy, because `ITERM_SHELL_INTEGRATION_INSTALLED` is unset. -/
theorem probe_ignores_identity_variables :
    spec_probe_structured envSpecProbeOnly = true ∧
    run_command_strategy envSpecProbeOnly ≠ Strategy.structured := by
  refine ⟨rfl, ?_⟩
  intro h
  exact Strategy.noConfusion h

/-- C4 amended: `run_command` selects the structured strategy if and only
if the environment variable `ITERM_SHELL_INTEGRATION_INSTALLED`
lowercases to `"yes"` and a last prompt object is available; the buffer,
username, hostname and prompt-event observables play no role. -/
theorem strategy_selected_by_env_and_prompt (env : RunEnv) :
    run_command_strategy env = Strategy.structured ↔
      (toLowerList (env.envVarShellIntegration.getD []) = "yes".toList ∧
        env.probePrompt.isSome = true) := by
  rw [run_command_strategy, shell_integration_enabled]
  by_cases h1 : toLowerList (env.envVarShellIntegration.getD []) = "yes".toList
  · by_cases h2 : env.probePrompt.isSome = true
    · simp [h1, h2]
    · simp [h1, h2]
  · have hb : (toLowerList (env.envVarShellIntegration.getD []) ==
        "yes".toList) = false := by
      simpa using h1
    simp only [hb, Bool.false_and, if_neg Bool.false_ne_true]
    constructor
    · intro h
      exact absurd h (fun he => Strategy.noConfusion he)
    · intro h
      exact absurd h.1 (by simpa using h1)

/-- C5: `validated_state` is a total boolean — every raising remote call
and every missing object folds into `false` — and it returns `true`
exactly when the connection is live, the application is fetched, the
session id resolves, and both window and tab are determined. -/
theorem validated_state_total_boolean (self : Handle) (env : ValidationEnv) :
    validated_state self env = true ↔
      (env.online = Call.ok true ∧
        (∃ a, env.getApp = Call.ok (some a)) ∧
        (∃ s, env.getSession = Call.ok (some s)) ∧
        ∃ w t, env.getWindowTab = Call.ok (some w, some t)) := by
  obtain ⟨o, ga, gs, gwt⟩ := env
  rw [validated_state]
  cases o with
  | raises => simp [validated_state_run]
  | ok b =>
      cases b with
      | false => simp [validated_state_run]
      | true =>
          cases ga with
          | raises => simp [validated_state_run]
          | ok oa =>
              cases oa with
              | none => simp [validated_state_run]
              | some a =>
                  cases gs with
                  | raises => simp [validated_state_run]
                  | ok os =>
                      cases os with
                      | none => simp [validated_state_run]
                      | some sid =>
                          cases gwt with
                          | raises => simp [validated_state_run]
                          | ok wt =>
                              obtain ⟨ow, ot⟩ := wt
                              cases ow with
                              | none => simp [validated_state_run]
                              | some w =>
                                  cases ot with
                                  | none => simp [validated_state_run]
                                  | some t => simp [validated_state_run]

/-- C8: when validation fails and neither a supplied nor a stored refresh
callback exists, `ensure_state` raises the no-refresh-callback error
(`RuntimeError("No refresh callback provided to ensure_state")`); when a
callback is available it refreshes in place from the handle the callback
produces. -/
theorem ensure_state_no_callback_raises (venv : ValidationEnv) (self : Handle)
    (cbRes : Nat → PyValue) (cb : Nat)
    (hinvalid : (validated_state_run self venv).1 = false)
    (hstored : self.refresh_callback = none) :
    ensure_state venv self none cbRes = Except.error noRefreshCallbackMsg ∧
    ensure_state venv self (some cb) cbRes =
      refresh_from (validated_state_run self venv).2 (cbRes cb) := by
  constructor
  · rw [ensure_state, if_neg (by rw [hinvalid]; exact Bool.false_ne_true)]
    simp [Option.orElse, hstored]
  · rw [ensure_state, if_neg (by rw [hinvalid]; exact Bool.false_ne_true)]
    simp [Option.orElse]

/-- Instance of the `ensure_state` behavior at a handle with no stored
callback and a dead connection. -/
theorem ensure_state_no_callback_instance :
    ensure_state ⟨Call.ok false, Call.ok none, Call.ok none, Call.ok (none, none)⟩
        ⟨0, 0, 0, 0, 0, 0, none, false, none, 0⟩ none
        (fun _ => PyValue.handle ⟨0, 0, 0, 0, 0, 0, none, false, none, 0⟩) =
      Except.error noRefreshCallbackMsg ∧
    ensure_state ⟨Call.ok false, Call.ok none, Call.ok none, Call.ok (none, none)⟩
        ⟨0, 0, 0, 0, 0, 0, none, false, none, 0⟩ (some 7)
        (fun _ => PyValue.handle ⟨0, 0, 0, 0, 0, 0, none, false, none, 0⟩) =
      refresh_from
        (validated_state_run
          ⟨0, 0, 0, 0, 0, 0, none, false, none, 0⟩
          ⟨Call.ok false, Call.ok none, Call.ok none, Call.ok (none, none)⟩).2
        ((fun _ => PyValue.handle ⟨0, 0, 0, 0, 0, 0, none, false, none, 0⟩) 7) :=
  ensure_state_no_callback_raises _ _ _ 7 rfl rfl

/-- C9: `refresh_from` copies connection, app, window, tab, session,
profile, hotkey flag and refresh callback from the other handle, leaves
the per-handle command lock unchanged, and on a non-handle argument
raises the type-mismatch error (`TypeError`) leaving every field of the
handle unchanged. -/
theorem refresh_from_copies_fields_preserves_lock (self o : Handle)
    (t : List Char) :
    (∃ h, refresh_from self (PyValue.handle o) = Except.ok h ∧
      h.connection = o.connection ∧ h.app = o.app ∧ h.window = o.window ∧
      h.tab = o.tab ∧ h.session = o.session ∧ h.profile = o.profile ∧
      h.is_hotkey_window = o.is_hotkey_window ∧
      h.refresh_callback = o.refresh_callback ∧
      h.run_command_lock = self.run_command_lock) ∧
    refresh_from self (PyValue.other t) = Except.error (typeMismatchMsg t) ∧
    refresh_apply self (PyValue.other t) = self := by
  refine ⟨⟨_, rfl, rfl, rfl, rfl, rfl, rfl, rfl, rfl, rfl, rfl⟩, rfl, rfl⟩

/-- C7: the transport refusing twice then succeeding yields a connection
after exactly three attempts with backoff sleeps 50 ms then 80 ms; every
sleep the loop ever performs follows the delay sequence 0.05, ×1.6,
capped at 0.5; and a transport that always refuses can only end in
`TimeoutError` once the deadline elapses. -/
theorem connection_retry_backoff_and_timeout :
    (create_connection_with_retry flaky3 1 10 =
        some (RetryResult.okConn 3, [0.05, 0.08])) ∧
    (∀ n, delaySeq n ≤ 0.5) ∧
    (∀ outcome d fuel k now m r sleeps,
        retry_run outcome d fuel k now (delaySeq m) = some (r, sleeps) →
        sleeps = (List.range sleeps.length).map (fun i => delaySeq (m + i))) ∧
    (∀ outcome d fuel k now delay r sleeps,
        (∀ j, outcome j = ConnOutcome.oserror Errno.econnrefused) →
        retry_run outcome d fuel k now delay = some (r, sleeps) →
        ∃ n, r = RetryResult.timedOut n) := by
  refine ⟨?_, ?_, ?_, ?_⟩
  · norm_num [create_connection_with_retry, retry_run, flaky3, transientErrno,
      min_def, delaySeq]
  · intro n
    cases n with
    | zero => norm_num [delaySeq]
    | succ m => rw [delaySeq]; exact min_le_left _ _
  · intro outcome d fuel
    induction fuel with
    | zero =>
        intro k now m r sleeps hs
        exact absurd hs (by rw [retry_run]; exact Option.noConfusion)
    | succ fuel ih =>
        intro k now m r sleeps hs
        rw [retry_run] at hs
        split at hs
        · simp only [Option.some.injEq, Prod.mk.injEq] at hs
          obtain ⟨-, hsl⟩ := hs
          subst hsl
          simp
        · split at hs
          · split at hs
            · simp only [Option.some.injEq, Prod.mk.injEq] at hs
              obtain ⟨-, hsl⟩ := hs
              subst hsl
              simp
            · split at hs
              · exact absurd hs (Option.noConfusion)
              · rename_i p r' sleeps' hrec
                simp only [Option.some.injEq, Prod.mk.injEq] at hs
                obtain ⟨-, hsl⟩ := hs
                have hmin : min (0.5 : ℚ) (delaySeq m * 1.6) = delaySeq (m + 1) := by
                  rw [delaySeq]
                rw [hmin] at hrec
                have hrecur := ih (k + 1) (now + delaySeq m) (m + 1) r' sleeps' hrec
                subst hsl
                rw [List.length_cons, List.range_succ_eq_map, List.map_cons,
                  List.map_map]
                refine List.cons_eq_cons.mpr ⟨by rw [Nat.add_zero], ?_⟩
                conv_lhs => rw [hrecur]
                apply List.map_congr_left
                intro i hi
                simp only [Function.comp]
                congr 1
                omega
          · simp only [Option.some.injEq, Prod.mk.injEq] at hs
            obtain ⟨-, hsl⟩ := hs
            subst hsl
            simp
  · intro outcome d fuel
    induction fuel with
    | zero =>
        intro k now delay r sleeps hall hs
        exact absurd hs (by rw [retry_run]; exact Option.noConfusion)
    | succ fuel ih =>
        intro k now delay r sleeps hall hs
        rw [retry_run] at hs
        split at hs
        · rename_i heq
          rw [hall k] at heq
          exact absurd heq (fun h => ConnOutcome.noConfusion h)
        · rename_i e heq
          rw [hall k] at heq
          have he : e = Errno.econnrefused :=
            (ConnOutcome.oserror.inj heq).symm
          subst he
          split at hs
          · split at hs
            · simp only [Option.some.injEq, Prod.mk.injEq] at hs
              exact ⟨k + 1, hs.1.symm⟩
            · split at hs
              · exact absurd hs (Option.noConfusion)
              · rename_i p r' sleeps' hrec
                simp only [Option.some.injEq, Prod.mk.injEq] at hs
                obtain ⟨n, hn⟩ := ih (k + 1) (now + delay) (min 0.5 (delay * 1.6))
                  r' sleeps' hall hrec
                exact ⟨n, hs.1 ▸ hn⟩
          · rename_i htr
            exact absurd rfl htr

/-- Instance of the retry behavior: a transport that always refuses, with a
0.1 s deadline, times out after exactly three attempts having slept
50 ms and 80 ms. -/
theorem connection_retry_timeout_instance :
    create_connection_with_retry alwaysRefuses 0.1 10 =
      some (RetryResult.timedOut 3, [0.05, 0.08]) ∧
    ∃ n, RetryResult.timedOut 3 = RetryResult.timedOut n :=
  ⟨by norm_num [create_connection_with_retry, retry_run, alwaysRefuses,
      transientErrno, min_def],
   connection_retry_backoff_and_timeout.2.2.2 alwaysRefuses 0.1 10 0 0 0.05
     (RetryResult.timedOut 3) [0.05, 0.08] (fun _ => rfl)
     (by norm_num [create_connection_with_retry, retry_run, alwaysRefuses,
        transientErrno, min_def])⟩

theorem lineRange_length (s n : Int) : (lineRange s n).length = n.toNat := by
  rw [lineRange, List.length_map, List.length_range]

theorem mem_lineRange (s n x : Int) (hx : x ∈ lineRange s n) :
    s ≤ x ∧ x < s + n.toNat := by
  simp only [lineRange, List.mem_map, List.mem_range] at hx
  obtain ⟨i, hi, rfl⟩ := hx
  omega

/-- C10 counterexample: with overflow 7 and `max_lines = 0` the tail
snapshot returns start line 0, which is below the overflow, refuting
"in every case the returned start line number is at least the
overflow". -/
theorem snapshot_tail_start_below_overflow :
    snapshot_tail_lines ⟨7, 5, 3⟩ 0 = (0, []) ∧
    (snapshot_tail_lines ⟨7, 5, 3⟩ 0).1 < (LineInfo.mk 7 5 3).overflow := by
  refine ⟨rfl, by decide⟩

/-- C10 amended: both snapshot readers return an empty list in their
guard cases (the tail reader with start 0 for `max_lines ≤ 0`, the range
reader echoing `first_line` for an inverted range); in every case where
the buffer is actually consulted, the returned start is at least the
overflow, every addressed line number lies inside the retained buffer,
and the number of returned lines never exceeds the requested window. -/
theorem snapshot_reads_clamped :
    (∀ li ml, ml ≤ 0 → snapshot_tail_lines li ml = (0, [])) ∧
    (∀ li ml, 0 < ml →
      li.scrollback_buffer_height + li.mutable_area_height ≤ 0 →
      snapshot_tail_lines li ml = (li.overflow, [])) ∧
    (∀ li ml, 0 < ml →
      0 < li.scrollback_buffer_height + li.mutable_area_height →
      li.overflow ≤ (snapshot_tail_lines li ml).1 ∧
      (((snapshot_tail_lines li ml).2.length : Int) ≤ ml ∧
        ∀ x ∈ (snapshot_tail_lines li ml).2,
          li.overflow ≤ x ∧
          x < li.overflow +
            (li.scrollback_buffer_height + li.mutable_area_height))) ∧
    (∀ li f l, l < f → snapshot_range li f l = (f, [])) ∧
    (∀ li f l, f ≤ l →
      li.scrollback_buffer_height + li.mutable_area_height ≤ 0 →
      snapshot_range li f l = (li.overflow, [])) ∧
    (∀ li f l, f ≤ l →
      0 < li.scrollback_buffer_height + li.mutable_area_height →
      li.overflow ≤ (snapshot_range li f l).1 ∧
      (((snapshot_range li f l).2.length : Int) ≤ l + 1 - f ∧
        ∀ x ∈ (snapshot_range li f l).2,
          li.overflow ≤ x ∧
          x < li.overflow +
            (li.scrollback_buffer_height + li.mutable_area_height)))
    := by
  refine ⟨?_, ?_, ?_, ?_, ?_, ?_⟩
  · intro li ml hml
    rw [snapshot_tail_lines, if_pos hml]
  · intro li ml hml htot
    rw [snapshot_tail_lines, if_neg (by omega), if_pos htot]
  · intro li ml hml htot
    rw [snapshot_tail_lines, if_neg (by omega), if_neg (by omega)]
    have h1 := le_max_left li.overflow
      (li.overflow + (li.scrollback_buffer_height + li.mutable_area_height) - ml)
    have h2 := le_max_right li.overflow
      (li.overflow + (li.scrollback_buffer_height + li.mutable_area_height) - ml)
    refine ⟨h1, ?_, ?_⟩
    · rw [lineRange_length]
      omega
    · intro x hx
      have := mem_lineRange _ _ _ hx
      omega
  · intro li f l hlt
    rw [snapshot_range, if_pos hlt]
  · intro li f l hle htot
    rw [snapshot_range, if_neg (by omega), if_pos htot]
  · intro li f l hle htot
    rw [snapshot_range, if_neg (by omega), if_neg (by omega)]
    have h1 := le_max_left li.overflow f
    have h2 := le_max_right li.overflow f
    have h3 := min_le_left
      (li.overflow + (li.scrollback_buffer_height + li.mutable_area_height)) (l + 1)
    have h4 := min_le_right
      (li.overflow + (li.scrollback_buffer_height + li.mutable_area_height)) (l + 1)
    by_cases hempty :
        min (li.overflow + (li.scrollback_buffer_height + li.mutable_area_height))
          (l + 1) ≤ max li.overflow f
    · rw [if_pos hempty]
      refine ⟨h1, by simp; omega, by simp⟩
    · rw [if_neg hempty]
      refine ⟨h1, ?_, ?_⟩
      · rw [lineRange_length]
        omega
      · intro x hx
        have := mem_lineRange _ _ _ hx
        omega

/-- Instance of the snapshot clamping at overflow 7, heights 5 + 3,
window 4: the tail read starts at line 11 ≥ 7 and returns 4 ≤ 4 lines;
an inverted range returns no lines. -/
theorem snapshot_reads_clamped_instance :
    ((7 : Int) ≤ (snapshot_tail_lines ⟨7, 5, 3⟩ 4).1 ∧
      (((snapshot_tail_lines ⟨7, 5, 3⟩ 4).2.length : Int) ≤ 4)) ∧
    snapshot_range ⟨7, 5, 3⟩ 5 (-2) = (5, []) := by
  have h3 := snapshot_reads_clamped.2.2.1 ⟨7, 5, 3⟩ 4 (by decide) (by decide)
  have h4 := snapshot_reads_clamped.2.2.2.1 ⟨7, 5, 3⟩ 5 (-2) (by decide)
  exact ⟨⟨h3.1, h3.2.1⟩, h4⟩
